import Mathlib

/-
Shallow embedding of the LSP communication layer of the alloy IDE:
the JSON-RPC transport (alloy-ide/src-tauri/src/lsp/transport.rs) and the
session manager (alloy-ide/src-tauri/src/lsp/manager.rs).

Pure protocol logic (framing, id allocation, response routing, request
outcome selection, lifecycle state transitions) is translated directly from
the Rust source.  Effects of the surrounding runtime (file-system probes,
process spawning, channel tokens, I/O results) are supplied through explicit
environment records so that every code path of the source becomes a total
function that can be evaluated and reasoned about.
-/

set_option autoImplicit false

/-- Minimal model of a serde_json value: enough structure to distinguish
null, booleans, numbers (integer-valued, carrying an arbitrary integer, or
non-integer, carrying only a display string), strings, arrays and objects. -/
inductive Json where
  | null : Json
  | bool (b : Bool) : Json
  | numI (n : Int) : Json
  | numF (raw : String) : Json
  | str (s : String) : Json
  | arr (elems : List Json) : Json
  | obj (fields : List (String × Json)) : Json

/-- Model of serde_json Number.as_i64: an integer number inside the i64
range yields its value; any other number yields none. -/
def jsonAsI64 : Json → Option Int
  | Json.numI n =>
      if -9223372036854775808 ≤ n ∧ n ≤ 9223372036854775807 then some n else none
  | _ => none

/-- Lowercase hexadecimal digit, as used by serde_json control escapes. -/
def hexDigitChar (n : Nat) : Char :=
  if n < 10 then Char.ofNat (48 + n) else Char.ofNat (87 + n)

/-- Escape of one character inside a JSON string literal (serde_json style). -/
def escapeJsonChar (c : Char) : String :=
  if c = '"' then "\\\""
  else if c = '\\' then "\\\\"
  else if c.toNat = 8 then "\\b"
  else if c.toNat = 9 then "\\t"
  else if c.toNat = 10 then "\\n"
  else if c.toNat = 12 then "\\f"
  else if c.toNat = 13 then "\\r"
  else if c.toNat < 32 then
    "\\u00" ++ String.mk [hexDigitChar (c.toNat / 16), hexDigitChar (c.toNat % 16)]
  else String.singleton c

/-- Escape a whole JSON string body. -/
def jsonEscape (s : String) : String :=
  String.join (s.data.map escapeJsonChar)

mutual

/-- Compact display of a Json value, mirroring the Display implementation of
serde_json used by the transport's protocol-error formatting. -/
def jsonToString : Json → String
  | Json.null => "null"
  | Json.bool true => "true"
  | Json.bool false => "false"
  | Json.numI n => toString n
  | Json.numF raw => raw
  | Json.str s => "\"" ++ jsonEscape s ++ "\""
  | Json.arr xs => "[" ++ jsonArrToString xs ++ "]"
  | Json.obj fs => "\x7b" ++ jsonObjToString fs ++ "\x7d"

/-- Comma-separated display of the elements of a JSON array. -/
def jsonArrToString : List Json → String
  | [] => ""
  | [x] => jsonToString x
  | x :: xs => jsonToString x ++ "," ++ jsonArrToString xs

/-- Comma-separated display of the fields of a JSON object. -/
def jsonObjToString : List (String × Json) → String
  | [] => ""
  | [(k, v)] => "\"" ++ jsonEscape k ++ "\":" ++ jsonToString v
  | (k, v) :: fs =>
      "\"" ++ jsonEscape k ++ "\":" ++ jsonToString v ++ "," ++ jsonObjToString fs

end

/-- Inbound JSON-RPC envelope (struct LspMessage of transport.rs): optional
id, method, result, error and params fields, all independently optional. -/
structure LspMessage where
  id : Option Json
  method : Option String
  result : Option Json
  error : Option Json
  params : Option Json

/-- LspMessage.is_response: id present and method absent. -/
def LspMessage.is_response (m : LspMessage) : Bool :=
  m.id.isSome && m.method.isNone

/-- LspMessage.is_notification: id absent and method present. -/
def LspMessage.is_notification (m : LspMessage) : Bool :=
  m.id.isNone && m.method.isSome

/-- LspMessage.is_request: id and method both present. -/
def LspMessage.is_request (m : LspMessage) : Bool :=
  m.id.isSome && m.method.isSome

/-- State observed by the transport's reader loop: the pending-request table
(request id to one-shot sender, here a caller token), the deliveries already
made through one-shot channels (token paired with the delivered envelope),
and the notification channel contents in push order. -/
structure RouterState where
  pending : List (Int × Nat)
  fulfilled : List (Nat × LspMessage)
  notifications : List LspMessage

/-- Lookup in the pending table by request id (HashMap get semantics on a
table whose keys are unique). -/
def lookupPending : List (Int × Nat) → Int → Option Nat
  | [], _ => none
  | (k, v) :: rest, i => if k = i then some v else lookupPending rest i

/-- Removal from the pending table by request id (HashMap remove semantics:
the entry with that key disappears). -/
def removePending : List (Int × Nat) → Int → List (Int × Nat)
  | [], _ => []
  | (k, v) :: rest, i => if k = i then rest else (k, v) :: removePending rest i

/-- One step of the reader loop's routing (transport.rs reader_loop, after a
frame has been parsed): a response whose id is an i64-valued JSON number with
a matching pending entry removes that entry and fulfills its one-shot;
any other response shape is dropped; every non-response is pushed onto the
notification channel. -/
def processFrame (st : RouterState) (msg : LspMessage) : RouterState :=
  if msg.is_response then
    match msg.id with
    | some j =>
      match jsonAsI64 j with
      | some i =>
        match lookupPending st.pending i with
        | some tok =>
            { st with pending := removePending st.pending i,
                      fulfilled := st.fulfilled ++ [(tok, msg)] }
        | none => st
      | none => st
    | none => st
  else
    { st with notifications := st.notifications ++ [msg] }

/-- Routing of a whole sequence of parsed inbound frames, in wire order. -/
def processFrames (st : RouterState) (frames : List LspMessage) : RouterState :=
  frames.foldl processFrame st

/-- Message received through the one-shot channel of the caller holding the
given token, if any. -/
def delivered (st : RouterState) (tok : Nat) : Option LspMessage :=
  (st.fulfilled.find? (fun p => p.fst == tok)).map Prod.snd

/-- Router state at the point where the given pending requests are in flight
and no frame has been routed yet. -/
def initRouter (pending : List (Int × Nat)) : RouterState :=
  { pending := pending, fulfilled := [], notifications := [] }

/-- Response frame carrying the given id and optional result/error payloads
(the shape produced by a server answering a request). -/
def mkResponse (i : Int) (res err : Option Json) : LspMessage :=
  { id := some (Json.numI i), method := none, result := res, error := err,
    params := none }

/-- Outcome of LspTransport::request once its one-shot resolves
(transport.rs lines 118-122): a closed channel yields the connection-closed
error; a response with an error field yields a protocol error built from it;
otherwise the result value (or JSON null) is returned. -/
def requestAwait (rx : Option LspMessage) : Except String Json :=
  match rx with
  | none => Except.error "LSP response channel closed"
  | some response =>
    match response.error with
    | some err => Except.error ("LSP error: " ++ jsonToString err)
    | none => Except.ok (response.result.getD Json.null)

/-- Two's-complement wrap of an integer into the i64 range, the semantics of
AtomicI64 arithmetic. -/
def i64wrap (n : Int) : Int :=
  (n + 9223372036854775808) % 18446744073709551616 - 9223372036854775808

/-- Value of the transport's next_id atomic after k fetch_add(1) calls; the
counter is initialized to 1 (LspTransport::new). -/
def nextIdState : Nat → Int
  | 0 => 1
  | k + 1 => i64wrap (nextIdState k + 1)

/-- Id assigned to the k-th request (0-indexed) of one transport instance:
fetch_add returns the value held before the increment. -/
def assignedId (k : Nat) : Int :=
  nextIdState k

/-- UTF-8 bytes of an ASCII string literal, as natural numbers. -/
def strBytes (s : String) : List Nat :=
  s.data.map Char.toNat

/-- Wire bytes of one outgoing message (LspTransport::send_raw): the
Content-Length header whose decimal value is the byte length of the body,
CRLF CRLF, then the body bytes. -/
def encodeFrame (body : List Nat) : List Nat :=
  strBytes "Content-Length: " ++ natToDigits body.length ++ [13, 10, 13, 10] ++ body
where
  /-- Decimal digit bytes of a natural number, most significant first. -/
  natToDigits (n : Nat) : List Nat :=
    if n < 10 then [48 + n]
    else natToDigits (n / 10) ++ [48 + n % 10]
  termination_by n
  decreasing_by exact Nat.div_lt_self (by omega) (by omega)

/-- Decimal digit bytes of a natural number (top-level name for the helper
used by encodeFrame). -/
def natToDigits (n : Nat) : List Nat :=
  encodeFrame.natToDigits n

/-- Is this byte an ASCII whitespace byte (the bytes str::trim removes from
protocol header lines, which are ASCII)? -/
def isWsByte (b : Nat) : Bool :=
  b == 9 || b == 10 || b == 11 || b == 12 || b == 13 || b == 32

/-- Drop leading whitespace bytes. -/
def dropLeadingWs : List Nat → List Nat
  | [] => []
  | b :: bs => if isWsByte b then dropLeadingWs bs else b :: bs

/-- Drop trailing whitespace bytes. -/
def dropTrailingWs (l : List Nat) : List Nat :=
  (dropLeadingWs l.reverse).reverse

/-- Both-sided trim of a header line, the reader loop's trimmed view. -/
def trimAscii (l : List Nat) : List Nat :=
  dropTrailingWs (dropLeadingWs l)

/-- Strip a byte sequence prefix, mirroring str::strip_prefix on the trimmed
header line. -/
def stripPrefixBytes : List Nat → List Nat → Option (List Nat)
  | [], l => some l
  | _ :: _, [] => none
  | p :: ps, b :: bs => if p = b then stripPrefixBytes ps bs else none

/-- Accumulator step of usize parsing over decimal digit bytes. -/
def parseNatAux (acc : Nat) : List Nat → Option Nat
  | [] => some acc
  | b :: bs => if 48 ≤ b ∧ b ≤ 57 then parseNatAux (acc * 10 + (b - 48)) bs else none

/-- Parse of a decimal byte string, mirroring str::parse::usize on the
header value (empty or non-digit input fails). -/
def parseNat (bs : List Nat) : Option Nat :=
  match bs with
  | [] => none
  | _ :: _ => parseNatAux 0 bs

/-- Byte list of the header name the reader recognizes. -/
def contentLengthBytes : List Nat :=
  strBytes "Content-Length: "

/-- Header phase of the reader loop (transport.rs reader_loop, first inner
loop): bytes are consumed line by line (read_line accumulates until a
newline; end of input with a partial line yields that line, end of input
with nothing pending ends the loop).  Each complete line is trimmed; a blank
line ends the header phase returning the recorded length and the remaining
bytes; a Content-Length line re-records the length as the parse result of
its value.  cur holds the bytes of the line being accumulated. -/
def headerLoop : List Nat → List Nat → Option Nat → Option (Option Nat × List Nat)
  | [], cur, cl =>
      if cur = [] then none
      else
        let t := trimAscii cur
        if t = [] then some (cl, []) else none
  | b :: rest, cur, cl =>
      if b = 10 then
        let t := trimAscii (cur ++ [10])
        if t = [] then some (cl, rest)
        else
          match stripPrefixBytes contentLengthBytes t with
          | some val => headerLoop rest [] (parseNat val)
          | none => headerLoop rest [] cl
      else headerLoop rest (cur ++ [b]) cl

/-- Header/body decoding of one frame by the reader loop: run the header
phase from an empty current line and no recorded length; a missing
Content-Length makes the iteration yield no frame; otherwise exactly length
bytes are read as the body (failing like read_exact if fewer remain),
returning the body bytes and the rest of the stream. -/
def decodeFrame (bs : List Nat) : Option (List Nat × List Nat) :=
  match headerLoop bs [] none with
  | none => none
  | some (none, _) => none
  | some (some len, rest) =>
      if len ≤ rest.length then some (rest.take len, rest.drop len) else none

/-- Session status of the manager (enum LspStatus of manager.rs). -/
inductive LspStatus where
  | Stopped : LspStatus
  | Starting : LspStatus
  | Running : LspStatus
  | Error (reason : String) : LspStatus
deriving DecidableEq

/-- Mutable state owned by the LspManager: the held transport (a token when
one is held), the status, the project root, and the not-yet-taken
notification receiver (a token when one is held). -/
structure ManagerState where
  transport : Option Nat
  status : LspStatus
  project_root : Option String
  notification_rx : Option Nat

/-- LspManager::new: no transport, Stopped, no root, no receiver. -/
def newManager : ManagerState :=
  { transport := none, status := LspStatus.Stopped, project_root := none,
    notification_rx := none }

/-- Environment of one start attempt: results of every external probe and
effect the manager performs, supplied explicitly (environment variables,
file-system existence, directory listing of the plugins dir, workspace dir
creation, process spawn, pipe acquisition, the initialize round-trip and the
initialized notification), plus the tokens of the transport and receiver a
successful LspTransport::new would produce. -/
structure StartEnv where
  jdtlsHome : Option String
  javaHome : Option String
  home : Option String
  targetOs : String
  pathExists : String → Bool
  readDirPlugins : Except String (List String)
  createDirResult : Except String Unit
  spawnResult : Except String Unit
  stdinAvailable : Bool
  stdoutAvailable : Bool
  initResult : Except String Json
  initializedResult : Except String Unit
  transportToken : Nat
  rxToken : Nat

/-- Candidate install locations probed by find_jdtls after the JDTLS_HOME
variable, in source order. -/
def jdtlsCandidates (e : StartEnv) : List String :=
  ["/opt/homebrew/opt/jdtls/libexec",
   "/usr/local/opt/jdtls/libexec",
   "/usr/share/java/jdtls",
   "/usr/local/share/jdtls",
   (e.home.getD "") ++ "/.local/share/jdtls"]

/-- LspManager::find_jdtls: JDTLS_HOME if it exists on disk, else the first
existing candidate location, else none. -/
def find_jdtls (e : StartEnv) : Option String :=
  match e.jdtlsHome with
  | some h =>
      if e.pathExists h then some h else (jdtlsCandidates e).find? e.pathExists
  | none => (jdtlsCandidates e).find? e.pathExists

/-- LspManager::find_java: JAVA_HOME/bin/java when that file exists,
otherwise the bare path "java" resolved via PATH — the function has no
failing branch. -/
def find_java (e : StartEnv) : Option String :=
  match e.javaHome with
  | some h =>
      if e.pathExists (h ++ "/bin/java") then some (h ++ "/bin/java")
      else some "java"
  | none => some "java"

/-- Does this plugins-directory entry name the Equinox launcher jar? -/
def isLauncherJarName (n : String) : Bool :=
  n.startsWith "org.eclipse.equinox.launcher_" && n.endsWith ".jar"

/-- LspManager::find_launcher_jar over the plugins directory listing. -/
def find_launcher_jar (e : StartEnv) (pluginsDir : String) : Except String String :=
  if e.pathExists pluginsDir then
    match e.readDirPlugins with
    | Except.error err => Except.error ("Failed to read plugins dir: " ++ err)
    | Except.ok entries =>
      match entries.find? isLauncherJarName with
      | some nm => Except.ok (pluginsDir ++ "/" ++ nm)
      | none =>
          Except.error "Equinox launcher JAR not found in JDT LS plugins directory"
  else
    Except.error ("JDT LS plugins directory not found: \"" ++ pluginsDir ++ "\"")

/-- LspManager::find_config_dir: the platform config directory, then the
generic config directory, else a descriptive error. -/
def find_config_dir (e : StartEnv) (jdtlsHome : String) : Except String String :=
  let osConfig :=
    if e.targetOs = "macos" then "config_mac"
    else if e.targetOs = "windows" then "config_win"
    else "config_linux"
  if e.pathExists (jdtlsHome ++ "/" ++ osConfig) then
    Except.ok (jdtlsHome ++ "/" ++ osConfig)
  else if e.pathExists (jdtlsHome ++ "/config") then
    Except.ok (jdtlsHome ++ "/config")
  else
    Except.error ("JDT LS config directory not found (tried " ++ osConfig ++ " and config)")

/-- LspManager::start: a no-op when already Running or Starting; otherwise
the status becomes Starting and the root is recorded, then each discovery,
launch and handshake step either aborts the attempt with its error (leaving
the state as it is at that point) or proceeds; after the initialize request
and initialized notification succeed, the transport and receiver are stored
and the status becomes Running. -/
def start (s : ManagerState) (root : String) (e : StartEnv) :
    ManagerState × Except String Unit :=
  if s.status = LspStatus.Running ∨ s.status = LspStatus.Starting then
    (s, Except.ok ())
  else
    let s1 := { s with status := LspStatus.Starting, project_root := some root }
    match find_jdtls e with
    | none =>
        (s1, Except.error
          "Eclipse JDT LS not found. Set JDTLS_HOME or install via: brew install jdtls")
    | some jdtlsHome =>
      match find_java e with
      | none =>
          (s1, Except.error "Java not found. Set JAVA_HOME or install Java 21+")
      | some _java =>
        match find_launcher_jar e (jdtlsHome ++ "/plugins") with
        | Except.error msg => (s1, Except.error msg)
        | Except.ok _jar =>
          match find_config_dir e jdtlsHome with
          | Except.error msg => (s1, Except.error msg)
          | Except.ok _cfg =>
            match e.createDirResult with
            | Except.error msg =>
                (s1, Except.error ("Failed to create workspace dir: " ++ msg))
            | Except.ok _ =>
              match e.spawnResult with
              | Except.error msg =>
                  (s1, Except.error ("Failed to spawn JDT LS: " ++ msg))
              | Except.ok _ =>
                if e.stdinAvailable then
                  if e.stdoutAvailable then
                    match e.initResult with
                    | Except.error msg => (s1, Except.error msg)
                    | Except.ok _caps =>
                      match e.initializedResult with
                      | Except.error msg => (s1, Except.error msg)
                      | Except.ok _ =>
                          ({ s1 with transport := some e.transportToken,
                                     notification_rx := some e.rxToken,
                                     status := LspStatus.Running },
                           Except.ok ())
                  else (s1, Except.error "Failed to get JDT LS stdout")
                else (s1, Except.error "Failed to get JDT LS stdin")

/-- LspManager::stop: best-effort shutdown/exit, then unconditionally drop
the transport and receiver, set Stopped, clear the root, and return Ok. -/
def stop (s : ManagerState) : ManagerState × Except String Unit :=
  ({ s with transport := none, notification_rx := none,
            status := LspStatus.Stopped, project_root := none },
   Except.ok ())

/-- LspManager::take_notification_rx: Option::take on the stored receiver —
returns whatever is held and leaves none behind. -/
def take_notification_rx (s : ManagerState) : Option Nat × ManagerState :=
  (s.notification_rx, { s with notification_rx := none })

/-- Observable effect of one feature call on the manager: either an
immediate failure (no transport held, nothing written to the subprocess) or
a delegated request with its method and params. -/
inductive FeatureCall where
  | failed (msg : String) : FeatureCall
  | requested (method : String) (params : Json) : FeatureCall

/-- Methods written to the subprocess by a feature call: none on the failure
path, the delegated request's method otherwise. -/
def writesOf : FeatureCall → List String
  | FeatureCall.failed _ => []
  | FeatureCall.requested m _ => [m]

/-- Params object of textDocument/completion. -/
def completionParams (uri : String) (line character : Nat) : Json :=
  Json.obj [("textDocument", Json.obj [("uri", Json.str uri)]),
            ("position", Json.obj [("line", Json.numI line),
                                   ("character", Json.numI character)])]

/-- LspManager::completion: fails with "LSP not running" when no transport
is held, otherwise delegates a textDocument/completion request. -/
def completion (s : ManagerState) (uri : String) (line character : Nat) :
    FeatureCall :=
  match s.transport with
  | none => FeatureCall.failed "LSP not running"
  | some _ => FeatureCall.requested "textDocument/completion" (completionParams uri line character)

/-- LspManager::hover: fails with "LSP not running" when no transport is
held, otherwise delegates a textDocument/hover request. -/
def hover (s : ManagerState) (uri : String) (line character : Nat) :
    FeatureCall :=
  match s.transport with
  | none => FeatureCall.failed "LSP not running"
  | some _ => FeatureCall.requested "textDocument/hover" (completionParams uri line character)

/-- Start environment in which no relevant environment variable is set,
nothing exists on disk, and spawning fails (no Java on the machine). -/
def emptyEnv : StartEnv :=
  { jdtlsHome := none, javaHome := none, home := none, targetOs := "linux",
    pathExists := fun _ => false, readDirPlugins := Except.error "io",
    createDirResult := Except.ok (),
    spawnResult := Except.error "No such file or directory",
    stdinAvailable := true, stdoutAvailable := true,
    initResult := Except.ok Json.null, initializedResult := Except.ok (),
    transportToken := 1, rxToken := 7 }

/-- Start environment where only the JDT LS home directory exists and
JAVA_HOME is unset: no Java runtime is discoverable on this machine. -/
def noJavaEnv : StartEnv :=
  { emptyEnv with jdtlsHome := some "/opt/jdtls",
                  pathExists := fun p => p == "/opt/jdtls" }

/-- Manager state of a running session holding a notification receiver. -/
def mgrWithRx : ManagerState :=
  { transport := some 1, status := LspStatus.Running,
    project_root := some "/proj", notification_rx := some 7 }

/-! Helper lemmas about the router. -/

theorem is_response_of_id_none (m : LspMessage) (h : m.id = none) :
    m.is_response = false := by
  simp [LspMessage.is_response, h]

theorem processFrame_notifications (st : RouterState) (m : LspMessage) :
    (processFrame st m).notifications =
      st.notifications ++ (if m.is_response then [] else [m]) := by
  by_cases h : m.is_response
  · unfold processFrame
    rw [if_pos h, if_pos h]
    repeat' split
    all_goals simp
  · unfold processFrame
    rw [if_neg h, if_neg h]

theorem processFrames_cons (st : RouterState) (f : LspMessage) (fs : List LspMessage) :
    processFrames st (f :: fs) = processFrames (processFrame st f) fs := rfl

theorem processFrames_notifications (st : RouterState) (frames : List LspMessage) :
    (processFrames st frames).notifications =
      st.notifications ++ frames.filter (fun x => !x.is_response) := by
  induction frames generalizing st with
  | nil => simp [processFrames]
  | cons f fs ih =>
    rw [processFrames_cons, ih, processFrame_notifications]
    by_cases h : f.is_response <;> simp [h, List.filter_cons]

/-- C5: request returns the result value when the matching response carries
no error field, a protocol-level error built from the error field when one
is present, and the connection-closed error when the one-shot channel closes
before a response arrives. -/
theorem request_outcome_by_response_shape :
    ∀ (r : LspMessage) (e : Json),
      requestAwait none = Except.error "LSP response channel closed" ∧
      (r.error = some e →
        requestAwait (some r) = Except.error ("LSP error: " ++ jsonToString e)) ∧
      (r.error = none →
        requestAwait (some r) = Except.ok (r.result.getD Json.null)) := by
  intro r e
  refine ⟨rfl, ?_, ?_⟩ <;> intro h <;> simp [requestAwait, h]

/-- Witness for C5 at concrete responses. -/
theorem request_outcome_by_response_shape_witness :
    requestAwait (some { id := some (Json.numI 1), method := none, result := none,
                         error := some (Json.str "boom"), params := none }) =
      Except.error ("LSP error: " ++ jsonToString (Json.str "boom")) ∧
    requestAwait (some { id := some (Json.numI 2), method := none,
                         result := some (Json.numI 42), error := none,
                         params := none }) = Except.ok (Json.numI 42) :=
  ⟨(request_outcome_by_response_shape
      { id := some (Json.numI 1), method := none, result := none,
        error := some (Json.str "boom"), params := none } (Json.str "boom")).2.1 rfl,
   (request_outcome_by_response_shape
      { id := some (Json.numI 2), method := none, result := some (Json.numI 42),
        error := none, params := none } (Json.str "boom")).2.2 rfl⟩

/-- C6: after stop the status reads Stopped and feature operations such as
completion and hover fail immediately with the not-running error, writing
nothing to the subprocess. -/
theorem stopped_manager_rejects_feature_calls :
    ∀ (s : ManagerState) (uri : String) (line character : Nat),
      (stop s).1.status = LspStatus.Stopped ∧
      completion (stop s).1 uri line character = FeatureCall.failed "LSP not running" ∧
      writesOf (completion (stop s).1 uri line character) = [] ∧
      hover (stop s).1 uri line character = FeatureCall.failed "LSP not running" ∧
      writesOf (hover (stop s).1 uri line character) = [] := by
  intro s uri line character
  exact ⟨rfl, rfl, rfl, rfl, rfl⟩

/-- C10: an inbound frame with an id and no method whose id is not an
i64-valued JSON number, or whose id matches no pending entry, leaves the
router state unchanged: nothing is fulfilled and nothing reaches the
notification channel. -/
theorem reader_discards_unmatched_response :
    ∀ (st : RouterState) (m : LspMessage) (j : Json),
      m.method = none → m.id = some j →
      (∀ n : Int, j = Json.numI n → lookupPending st.pending n = none) →
      processFrame st m = st := by
  intro st m j hm hid hlk
  have hresp : m.is_response = true := by
    simp [LspMessage.is_response, hid, hm]
  unfold processFrame
  rw [if_pos hresp, hid]
  cases j with
  | numI n =>
    have hn := hlk n rfl
    simp only [jsonAsI64]
    split
    next i heq =>
      have hi : i = n := by
        by_cases hc : -9223372036854775808 ≤ n ∧ n ≤ 9223372036854775807
        · rw [if_pos hc] at heq
          exact (Option.some.inj heq).symm
        · rw [if_neg hc] at heq
          exact absurd heq (by simp)
      rw [hi, hn]
    next => rfl
  | null => rfl
  | bool b => rfl
  | numF raw => rfl
  | str s => rfl
  | arr xs => rfl
  | obj fs => rfl

/-- Witness for C10: a response frame with a string id is dropped. -/
theorem reader_discards_unmatched_response_witness :
    processFrame { pending := [(1, 10)], fulfilled := [], notifications := [] }
        { id := some (Json.str "abc"), method := none, result := none,
          error := none, params := none } =
      { pending := [(1, 10)], fulfilled := [], notifications := [] } :=
  reader_discards_unmatched_response
    { pending := [(1, 10)], fulfilled := [], notifications := [] }
    { id := some (Json.str "abc"), method := none, result := none,
      error := none, params := none }
    (Json.str "abc") rfl rfl (fun _ h => Json.noConfusion h)

/-- C4: a frame carrying a method and no id never touches the pending table
and is always appended to the notification channel, and across any inbound
sequence the channel receives the non-response frames in wire order. -/
theorem notifications_forwarded_in_order :
    ∀ (st : RouterState) (m : LspMessage) (frames : List LspMessage),
      m.is_notification = true →
      processFrame st m = { st with notifications := st.notifications ++ [m] } ∧
      m.is_response = false ∧
      (processFrames st frames).notifications =
        st.notifications ++ frames.filter (fun x => !x.is_response) := by
  intro st m frames hm
  have hid : m.id = none := by
    have := hm
    simp only [LspMessage.is_notification, Bool.and_eq_true, Option.isNone_iff_eq_none] at this
    exact this.1
  have hresp : m.is_response = false := is_response_of_id_none m hid
  refine ⟨?_, hresp, processFrames_notifications st frames⟩
  unfold processFrame
  rw [if_neg (by rw [hresp]; exact Bool.false_ne_true)]

/-- Witness for C4 at a concrete notification frame and mixed frame list. -/
theorem notifications_forwarded_in_order_witness :
    processFrame { pending := [], fulfilled := [], notifications := [] }
        { id := none, method := some "textDocument/publishDiagnostics",
          result := none, error := none, params := none } =
      { pending := [], fulfilled := [],
        notifications := [{ id := none,
                            method := some "textDocument/publishDiagnostics",
                            result := none, error := none, params := none }] } ∧
    ({ id := none, method := some "textDocument/publishDiagnostics",
       result := none, error := none,
       params := none } : LspMessage).is_response = false ∧
    (processFrames { pending := [], fulfilled := [], notifications := [] }
        [{ id := none, method := some "window/logMessage", result := none,
           error := none, params := none }]).notifications =
      [] ++ List.filter (fun x => !x.is_response)
        [{ id := none, method := some "window/logMessage", result := none,
           error := none, params := none }] := by
  have h := notifications_forwarded_in_order
    { pending := [], fulfilled := [], notifications := [] }
    { id := none, method := some "textDocument/publishDiagnostics",
      result := none, error := none, params := none }
    [{ id := none, method := some "window/logMessage", result := none,
       error := none, params := none }] rfl
  exact ⟨h.1, h.2.1, h.2.2⟩

/-! Lemmas about the id counter. -/

theorem i64wrap_add_one (x : Int) : i64wrap (i64wrap x + 1) = i64wrap (x + 1) := by
  unfold i64wrap
  omega

theorem i64wrap_of_range (x : Int)
    (h1 : -9223372036854775808 ≤ x) (h2 : x ≤ 9223372036854775807) :
    i64wrap x = x := by
  unfold i64wrap
  omega

theorem nextIdState_closed (k : Nat) : nextIdState k = i64wrap (1 + (k : Int)) := by
  induction k with
  | zero =>
    show (1 : Int) = i64wrap (1 + 0)
    unfold i64wrap
    norm_num
  | succ k ih =>
    show i64wrap (nextIdState k + 1) = i64wrap (1 + ((k : Int) + 1))
    rw [ih, i64wrap_add_one]
    ring_nf

/-- C3 counterexample: the id counter is a wrapping 64-bit atomic, so the
id assigned to request number 2^63 - 1 (0-indexed) wraps to the i64 minimum
and is smaller than the id assigned just before it. -/
theorem request_id_wraparound_cex :
    assignedId 9223372036854775807 < assignedId 9223372036854775806 ∧
    assignedId 9223372036854775807 = -9223372036854775808 := by
  have h1 := nextIdState_closed 9223372036854775807
  have h2 := nextIdState_closed 9223372036854775806
  unfold assignedId
  rw [h1, h2]
  unfold i64wrap
  norm_num

/-- C3 amended: within one transport instance the first assigned id is 1 and
ids are strictly increasing (hence never reused) for every request issued
before the 64-bit counter wraps, i.e. for request indices below 2^63 - 1. -/
theorem request_ids_monotone_before_wrap :
    assignedId 0 = 1 ∧
    ∀ j k : Nat, j < k → k < 9223372036854775807 →
      assignedId j < assignedId k := by
  constructor
  · rfl
  · intro j k hjk hk
    unfold assignedId
    rw [nextIdState_closed j, nextIdState_closed k]
    unfold i64wrap
    omega

/-- Witness for the amended C3 at the first two requests. -/
theorem request_ids_monotone_before_wrap_witness :
    assignedId 0 < assignedId 1 :=
  request_ids_monotone_before_wrap.2 0 1 (by decide) (by decide)

/-- C7: whenever a start attempt returns an error the status it leaves
behind is Starting — never Stopped and never Error — and in general a start
attempt only ever leaves the status unchanged or at Starting or Running. -/
theorem start_failure_leaves_status_starting :
    ∀ (s : ManagerState) (root : String) (e : StartEnv),
      (∀ msg, (start s root e).2 = Except.error msg →
        (start s root e).1.status = LspStatus.Starting) ∧
      ((start s root e).1.status = s.status ∨
       (start s root e).1.status = LspStatus.Starting ∨
       (start s root e).1.status = LspStatus.Running) := by
  intro s root e
  unfold start
  split
  · exact ⟨fun msg h => by simp at h, Or.inl rfl⟩
  · repeat' split
    all_goals first
      | exact ⟨fun msg h => rfl, Or.inr (Or.inl rfl)⟩
      | exact ⟨fun msg h => by simp at h, Or.inr (Or.inr rfl)⟩

/-- Witness for C7: with nothing installed, start fails and status reads
Starting afterwards. -/
theorem start_failure_leaves_status_starting_witness :
    (start newManager "/proj" emptyEnv).1.status = LspStatus.Starting :=
  (start_failure_leaves_status_starting newManager "/proj" emptyEnv).1
    "Eclipse JDT LS not found. Set JDTLS_HOME or install via: brew install jdtls" rfl

/-- C8 counterexample: on a machine where no Java runtime is discoverable
(JAVA_HOME unset, nothing on disk but the server home), the Java locator
still reports the bare path "java" and the start attempt does not fail with
the Java-not-found message — it fails later, here on the plugins probe. -/
theorem find_java_fallback_cex :
    find_java noJavaEnv = some "java" ∧
    (start newManager "/proj" noJavaEnv).2 =
      Except.error "JDT LS plugins directory not found: \"/opt/jdtls/plugins\"" ∧
    (start newManager "/proj" noJavaEnv).2 ≠
      Except.error "Java not found. Set JAVA_HOME or install Java 21+" := by
  refine ⟨rfl, rfl, ?_⟩
  intro h
  rw [show (start newManager "/proj" noJavaEnv).2 =
        Except.error "JDT LS plugins directory not found: \"/opt/jdtls/plugins\""
      from rfl] at h
  exact absurd (Except.error.inj h) (by decide)

/-- C8 amended: the server locator either returns a path or start aborts
with the descriptive JDT-LS-not-found message, while the Java locator never
fails — it yields JAVA_HOME/bin/java when that file exists and otherwise
falls back to the bare path "java" — so the Java-not-found error branch of
start is unreachable. -/
theorem locator_failure_behavior :
    (∀ e : StartEnv, ∃ p, find_java e = some p) ∧
    (∀ e : StartEnv, find_java e = some "java" ∨
       ∃ h, e.javaHome = some h ∧ find_java e = some (h ++ "/bin/java")) ∧
    (∀ (s : ManagerState) (root : String) (e : StartEnv),
       s.status ≠ LspStatus.Running → s.status ≠ LspStatus.Starting →
       find_jdtls e = none →
       (start s root e).2 = Except.error
         "Eclipse JDT LS not found. Set JDTLS_HOME or install via: brew install jdtls") := by
  refine ⟨?_, ?_, ?_⟩
  · intro e
    cases he : e.javaHome with
    | none => exact ⟨"java", by simp [find_java, he]⟩
    | some h =>
      by_cases hp : e.pathExists (h ++ "/bin/java") = true
      · exact ⟨h ++ "/bin/java", by simp [find_java, he, hp]⟩
      · exact ⟨"java", by simp [find_java, he, hp]⟩
  · intro e
    cases he : e.javaHome with
    | none => exact Or.inl (by simp [find_java, he])
    | some h =>
      by_cases hp : e.pathExists (h ++ "/bin/java") = true
      · exact Or.inr ⟨h, rfl, by simp [find_java, he, hp]⟩
      · exact Or.inl (by simp [find_java, he, hp])
  · intro s root e h1 h2 hj
    unfold start
    rw [if_neg (fun h => h.elim h1 h2), hj]

/-- Witness for the amended C8: in the empty environment start aborts with
the JDT-LS-not-found message. -/
theorem locator_failure_behavior_witness :
    (start newManager "/proj" emptyEnv).2 =
      Except.error
        "Eclipse JDT LS not found. Set JDTLS_HOME or install via: brew install jdtls" :=
  locator_failure_behavior.2.2 newManager "/proj" emptyEnv
    (by decide) (by decide) rfl

/-- C9: the notification receiver stored by a successful start is yielded by
the first take, after which the slot is empty and every further take yields
nothing until a start refills it. -/
theorem notification_rx_taken_at_most_once :
    ∀ (s : ManagerState) (r : Nat),
      s.notification_rx = some r →
      (take_notification_rx s).1 = some r ∧
      ((take_notification_rx s).2).notification_rx = none ∧
      (∀ s' : ManagerState, s'.notification_rx = none →
        (take_notification_rx s').1 = none ∧
        ((take_notification_rx s').2).notification_rx = none) ∧
      (∀ (s0 : ManagerState) (root : String) (e : StartEnv),
        s0.status ≠ LspStatus.Running → s0.status ≠ LspStatus.Starting →
        (start s0 root e).2 = Except.ok () →
        (take_notification_rx (start s0 root e).1).1 = some e.rxToken) := by
  intro s r hr
  refine ⟨hr, rfl, fun s' h' => ⟨h', rfl⟩, ?_⟩
  intro s0 root e h1 h2 hok
  revert hok
  unfold start
  rw [if_neg (fun h => h.elim h1 h2)]
  repeat' split
  all_goals intro hok
  all_goals first
    | rfl
    | exact absurd hok (by simp)

/-- Witness for C9: the first take yields the receiver, the second yields
nothing. -/
theorem notification_rx_taken_at_most_once_witness :
    (take_notification_rx mgrWithRx).1 = some 7 ∧
    (take_notification_rx (take_notification_rx mgrWithRx).2).1 = none := by
  have h := notification_rx_taken_at_most_once mgrWithRx 7 rfl
  exact ⟨h.1, (h.2.2.1 (take_notification_rx mgrWithRx).2 h.2.1).1⟩

/-! Lemmas about framing. -/

theorem natToDigits_eq (n : Nat) :
    natToDigits n =
      if n < 10 then [48 + n] else natToDigits (n / 10) ++ [48 + n % 10] := by
  show encodeFrame.natToDigits n = _
  rw [encodeFrame.natToDigits]
  rfl

theorem natToDigits_bound (n : Nat) : ∀ d ∈ natToDigits n, 48 ≤ d ∧ d ≤ 57 := by
  induction n using Nat.strong_induction_on with
  | _ n ih =>
    rw [natToDigits_eq]
    split
    · intro d hd
      rw [List.mem_singleton] at hd
      omega
    · intro d hd
      rw [List.mem_append] at hd
      rcases hd with hd | hd
      · exact ih (n / 10) (Nat.div_lt_self (by omega) (by omega)) d hd
      · rw [List.mem_singleton] at hd
        have : n % 10 < 10 := Nat.mod_lt n (by omega)
        omega

theorem natToDigits_ne_nil (n : Nat) : natToDigits n ≠ [] := by
  rw [natToDigits_eq]
  split <;> simp

theorem parseNatAux_append (l₁ l₂ : List Nat) :
    ∀ acc, parseNatAux acc (l₁ ++ l₂) =
      match parseNatAux acc l₁ with
      | some a => parseNatAux a l₂
      | none => none := by
  induction l₁ with
  | nil => intro acc; rfl
  | cons b bs ih =>
    intro acc
    by_cases hd : 48 ≤ b ∧ b ≤ 57
    · simp only [List.cons_append, parseNatAux, if_pos hd]
      exact ih _
    · simp only [List.cons_append, parseNatAux, if_neg hd]

theorem parseNatAux_digits (n : Nat) :
    ∀ acc, parseNatAux acc (natToDigits n) =
      some (acc * 10 ^ (natToDigits n).length + n) := by
  induction n using Nat.strong_induction_on with
  | _ n ih =>
    intro acc
    rw [natToDigits_eq]
    split
    · rename_i h
      show parseNatAux acc [48 + n] = some (acc * 10 ^ ([48 + n] : List Nat).length + n)
      simp only [parseNatAux, if_pos (show 48 ≤ 48 + n ∧ 48 + n ≤ 57 by omega),
        List.length_singleton, pow_one, Option.some.injEq]
      omega
    · rename_i h
      rw [parseNatAux_append]
      rw [ih (n / 10) (Nat.div_lt_self (by omega) (by omega)) acc]
      show parseNatAux (acc * 10 ^ (natToDigits (n / 10)).length + n / 10) [48 + n % 10] =
        some (acc * 10 ^ (natToDigits (n / 10) ++ [48 + n % 10]).length + n)
      simp only [parseNatAux,
        if_pos (show 48 ≤ 48 + n % 10 ∧ 48 + n % 10 ≤ 57 by omega),
        List.length_append, List.length_singleton, Option.some.injEq]
      have h3 : 48 + n % 10 - 48 = n % 10 := by omega
      rw [h3, pow_succ]
      have h4 : n / 10 * 10 + n % 10 = n := by omega
      calc (acc * 10 ^ (natToDigits (n / 10)).length + n / 10) * 10 + n % 10
          = acc * (10 ^ (natToDigits (n / 10)).length * 10) + (n / 10 * 10 + n % 10) := by
            ring
        _ = acc * (10 ^ (natToDigits (n / 10)).length * 10) + n := by rw [h4]

theorem parseNat_digits (n : Nat) : parseNat (natToDigits n) = some n := by
  rcases h : natToDigits n with _ | ⟨b, bs⟩
  · exact absurd h (natToDigits_ne_nil n)
  · show parseNatAux 0 (b :: bs) = some n
    rw [← h, parseNatAux_digits n 0]
    simp

theorem headerLoop_cons_newline (r cur : List Nat) (cl : Option Nat) :
    headerLoop (10 :: r) cur cl =
      if trimAscii (cur ++ [10]) = [] then some (cl, r)
      else
        match stripPrefixBytes contentLengthBytes (trimAscii (cur ++ [10])) with
        | some val => headerLoop r [] (parseNat val)
        | none => headerLoop r [] cl := rfl

theorem headerLoop_cons_other (b : Nat) (r cur : List Nat) (cl : Option Nat)
    (hb : b ≠ 10) : headerLoop (b :: r) cur cl = headerLoop r (cur ++ [b]) cl := by
  show (if b = 10 then _ else headerLoop r (cur ++ [b]) cl) = _
  rw [if_neg hb]

theorem headerLoop_skip (l : List Nat) (h10 : ∀ b ∈ l, b ≠ 10) :
    ∀ (r cur : List Nat) (cl : Option Nat),
      headerLoop (l ++ 10 :: r) cur cl = headerLoop (10 :: r) (cur ++ l) cl := by
  induction l with
  | nil => intro r cur cl; simp
  | cons b bs ih =>
    intro r cur cl
    have hb : b ≠ 10 := h10 b (List.mem_cons_self b bs)
    rw [List.cons_append, headerLoop_cons_other b _ cur cl hb]
    rw [ih (fun x hx => h10 x (List.mem_cons_of_mem b hx)) r (cur ++ [b]) cl]
    rw [List.append_assoc]
    rfl

theorem stripPrefixBytes_append (p l : List Nat) :
    stripPrefixBytes p (p ++ l) = some l := by
  induction p with
  | nil => rfl
  | cons b bs ih =>
    show stripPrefixBytes (b :: bs) (b :: (bs ++ l)) = some l
    simp only [stripPrefixBytes, if_pos rfl]
    exact ih

theorem dropLeadingWs_cons_not_ws (b : Nat) (l : List Nat) (hb : isWsByte b = false) :
    dropLeadingWs (b :: l) = b :: l := by
  show (if isWsByte b then dropLeadingWs l else b :: l) = b :: l
  rw [hb]
  rfl

theorem trimAscii_crlf (l : List Nat) (hne : l ≠ [])
    (hhead : ∀ b t, l = b :: t → isWsByte b = false)
    (hlast : ∀ d ds, l.reverse = d :: ds → isWsByte d = false) :
    trimAscii (l ++ [13, 10]) = l := by
  rcases l with _ | ⟨b, t⟩
  · exact absurd rfl hne
  rcases hrev : (b :: t).reverse with _ | ⟨d, ds⟩
  · exact absurd (List.reverse_eq_nil_iff.mp hrev) (by simp)
  have hb : isWsByte b = false := hhead b t rfl
  have hd : isWsByte d = false := hlast d ds hrev
  unfold trimAscii
  have h1 : dropLeadingWs ((b :: t) ++ [13, 10]) = (b :: t) ++ [13, 10] := by
    rw [List.cons_append]
    exact dropLeadingWs_cons_not_ws b (t ++ [13, 10]) hb
  rw [h1]
  unfold dropTrailingWs
  have h2 : ((b :: t) ++ [13, 10]).reverse = 10 :: 13 :: d :: ds := by
    rw [List.reverse_append, hrev]
    rfl
  rw [h2]
  have h3 : dropLeadingWs (10 :: 13 :: d :: ds) = d :: ds := by
    have w10 : isWsByte 10 = true := rfl
    have w13 : isWsByte 13 = true := rfl
    simp only [dropLeadingWs, w10, w13, if_true]
    exact dropLeadingWs_cons_not_ws d ds hd
  rw [h3, ← hrev, List.reverse_reverse]

theorem contentLength_head :
    contentLengthBytes = 67 :: strBytes "ontent-Length: " := rfl

theorem contentLength_no_newline : ∀ b ∈ contentLengthBytes, b ≠ 10 := by decide

/-- Header phase of the reader loop applied to an encoded frame: the
recorded content length is the encoded number and the remaining bytes are
exactly the body together with whatever follows the frame. -/
theorem headerLoop_encode (n : Nat) (rest : List Nat) :
    headerLoop (strBytes "Content-Length: " ++ natToDigits n ++ [13, 10, 13, 10] ++ rest)
      [] none = some (some n, rest) := by
  obtain ⟨d, ds, hrev⟩ : ∃ d ds, (natToDigits n).reverse = d :: ds := by
    rcases h : (natToDigits n).reverse with _ | ⟨d, ds⟩
    · exact absurd (List.reverse_eq_nil_iff.mp h) (natToDigits_ne_nil n)
    · exact ⟨d, ds, rfl⟩
  have hdmem : d ∈ natToDigits n := by
    rw [← List.mem_reverse, hrev]
    exact List.mem_cons_self d ds
  have hdbound := natToDigits_bound n d hdmem
  have hdws : isWsByte d = false := by
    simp only [isWsByte, Bool.or_eq_false_iff, beq_eq_false_iff_ne, ne_eq]
    omega
  have e1 : strBytes "Content-Length: " ++ natToDigits n ++ [13, 10, 13, 10] ++ rest =
      ((contentLengthBytes ++ natToDigits n) ++ [13]) ++ 10 :: (13 :: (10 :: rest)) := by
    show contentLengthBytes ++ natToDigits n ++ [13, 10, 13, 10] ++ rest = _
    simp
  rw [e1]
  have h10 : ∀ b ∈ (contentLengthBytes ++ natToDigits n) ++ [13], b ≠ 10 := by
    intro b hb
    rcases List.mem_append.mp hb with hb | hb
    · rcases List.mem_append.mp hb with hb | hb
      · exact contentLength_no_newline b hb
      · have := natToDigits_bound n b hb
        omega
    · rw [List.mem_singleton] at hb
      omega
  rw [headerLoop_skip _ h10 _ [] none, List.nil_append, headerLoop_cons_newline]
  have e2 : ((contentLengthBytes ++ natToDigits n) ++ [13]) ++ [10] =
      (contentLengthBytes ++ natToDigits n) ++ [13, 10] := by
    simp
  rw [e2]
  have htrim : trimAscii ((contentLengthBytes ++ natToDigits n) ++ [13, 10]) =
      contentLengthBytes ++ natToDigits n := by
    apply trimAscii_crlf
    · rw [contentLength_head]
      simp
    · intro b t heq
      rw [contentLength_head, List.cons_append] at heq
      injection heq with hb _
      rw [← hb]
      rfl
    · intro e es heq
      rw [List.reverse_append, hrev, List.cons_append] at heq
      injection heq with he _
      rw [← he]
      exact hdws
  rw [htrim]
  rw [if_neg (by rw [contentLength_head]; simp)]
  rw [stripPrefixBytes_append]
  show headerLoop (13 :: (10 :: rest)) [] (parseNat (natToDigits n)) = some (some n, rest)
  rw [parseNat_digits]
  rw [headerLoop_cons_other 13 _ _ _ (by omega), List.nil_append]
  rw [headerLoop_cons_newline]
  rw [if_pos (show trimAscii ([13] ++ [10]) = ([] : List Nat) from rfl)]

/-- C2: encoding any body with the outgoing Content-Length framing and
decoding it with the reader loop's header/body logic yields the identical
body bytes (the length is a byte count, so multi-byte UTF-8 bodies round-trip
unchanged). -/
theorem framing_roundtrip_identity :
    ∀ body : List Nat, decodeFrame (encodeFrame body) = some (body, []) := by
  intro body
  unfold decodeFrame encodeFrame
  rw [show encodeFrame.natToDigits body.length = natToDigits body.length from rfl]
  rw [headerLoop_encode body.length body]
  show (if body.length ≤ body.length then
          some (List.take body.length body, List.drop body.length body)
        else none) = some (body, [])
  rw [if_pos (le_refl body.length)]
  rw [List.take_length, List.drop_length]

/-! Lemmas about the pending table and response routing. -/

theorem lookupPending_mem (p : List (Int × Nat)) (i : Int) (tok : Nat)
    (hmem : (i, tok) ∈ p) (hkeys : (p.map Prod.fst).Nodup) :
    lookupPending p i = some tok := by
  induction p with
  | nil => cases hmem
  | cons e rest ih =>
    obtain ⟨k, v⟩ := e
    rw [List.map_cons, List.nodup_cons] at hkeys
    rcases List.mem_cons.mp hmem with heq | hrest
    · injection heq with h1 h2
      subst h1; subst h2
      show (if i = i then some tok else lookupPending rest i) = some tok
      rw [if_pos rfl]
    · have hki : k ≠ i := by
        intro h
        subst h
        exact hkeys.1 (List.mem_map.mpr ⟨(k, tok), hrest, rfl⟩)
      show (if k = i then some v else lookupPending rest i) = some tok
      rw [if_neg hki]
      exact ih hrest hkeys.2

theorem lookupPending_eq_some_mem (p : List (Int × Nat)) (i : Int) (tok : Nat)
    (h : lookupPending p i = some tok) : (i, tok) ∈ p := by
  induction p with
  | nil => cases h
  | cons e rest ih =>
    obtain ⟨k, v⟩ := e
    by_cases hk : k = i
    · subst hk
      have : (if k = k then some v else lookupPending rest k) = some tok := h
      rw [if_pos rfl] at this
      injection this with hv
      subst hv
      exact List.mem_cons_self _ _
    · have : (if k = i then some v else lookupPending rest i) = some tok := h
      rw [if_neg hk] at this
      exact List.mem_cons_of_mem _ (ih this)

theorem mem_removePending (p : List (Int × Nat)) (i : Int) (a : Int) (b : Nat)
    (hmem : (a, b) ∈ p) (hne : a ≠ i) : (a, b) ∈ removePending p i := by
  induction p with
  | nil => cases hmem
  | cons e rest ih =>
    obtain ⟨k, v⟩ := e
    by_cases hk : k = i
    · subst hk
      show (a, b) ∈ (if k = k then rest else (k, v) :: removePending rest k)
      rw [if_pos rfl]
      rcases List.mem_cons.mp hmem with heq | hrest
      · injection heq with h1 _
        exact absurd h1 hne
      · exact hrest
    · show (a, b) ∈ (if k = i then rest else (k, v) :: removePending rest i)
      rw [if_neg hk]
      rcases List.mem_cons.mp hmem with heq | hrest
      · exact heq ▸ List.mem_cons_self _ _
      · exact List.mem_cons_of_mem _ (ih hrest)

theorem removePending_subset (p : List (Int × Nat)) (i : Int) :
    ∀ x ∈ removePending p i, x ∈ p := by
  induction p with
  | nil => intro x hx; cases hx
  | cons e rest ih =>
    obtain ⟨k, v⟩ := e
    intro x hx
    by_cases hk : k = i
    · subst hk
      have : x ∈ (if k = k then rest else (k, v) :: removePending rest k) := hx
      rw [if_pos rfl] at this
      exact List.mem_cons_of_mem _ this
    · have : x ∈ (if k = i then rest else (k, v) :: removePending rest i) := hx
      rw [if_neg hk] at this
      rcases List.mem_cons.mp this with heq | hrest
      · exact heq ▸ List.mem_cons_self _ _
      · exact List.mem_cons_of_mem _ (ih x hrest)

theorem removePending_keys_sublist (p : List (Int × Nat)) (i : Int) :
    List.Sublist ((removePending p i).map Prod.fst) (p.map Prod.fst) := by
  induction p with
  | nil => exact List.Sublist.refl _
  | cons e rest ih =>
    obtain ⟨k, v⟩ := e
    by_cases hk : k = i
    · subst hk
      show List.Sublist ((if k = k then rest else _).map Prod.fst) _
      rw [if_pos rfl]
      exact List.sublist_cons_of_sublist _ (List.Sublist.refl _)
    · show List.Sublist ((if k = i then rest else (k, v) :: removePending rest i).map Prod.fst) _
      rw [if_neg hk]
      exact List.Sublist.cons₂ _ ih

theorem processFrame_serve (st : RouterState) (i : Int) (res err : Option Json) (tok : Nat)
    (hlk : lookupPending st.pending i = some tok)
    (hrange : -9223372036854775808 ≤ i ∧ i ≤ 9223372036854775807) :
    processFrame st (mkResponse i res err) =
      { st with pending := removePending st.pending i,
                fulfilled := st.fulfilled ++ [(tok, mkResponse i res err)] } := by
  have hresp : (mkResponse i res err).is_response = true := rfl
  unfold processFrame
  rw [if_pos hresp]
  show (match jsonAsI64 (Json.numI i) with
        | some i' =>
          match lookupPending st.pending i' with
          | some tok' =>
              { st with pending := removePending st.pending i',
                        fulfilled := st.fulfilled ++ [(tok', mkResponse i res err)] }
          | none => st
        | none => st) = _
  simp only [jsonAsI64, if_pos hrange]
  rw [hlk]

theorem processFrame_response_nolookup (st : RouterState) (i : Int)
    (res err : Option Json) (hlk : lookupPending st.pending i = none) :
    processFrame st (mkResponse i res err) = st := by
  have hresp : (mkResponse i res err).is_response = true := rfl
  unfold processFrame
  rw [if_pos hresp]
  show (match jsonAsI64 (Json.numI i) with
        | some i' =>
          match lookupPending st.pending i' with
          | some tok' =>
              { st with pending := removePending st.pending i',
                        fulfilled := st.fulfilled ++ [(tok', mkResponse i res err)] }
          | none => st
        | none => st) = st
  by_cases hr : -9223372036854775808 ≤ i ∧ i ≤ 9223372036854775807
  · simp only [jsonAsI64, if_pos hr]
    rw [hlk]
  · simp only [jsonAsI64, if_neg hr]

theorem processFrames_fulfilled_extend (frames : List LspMessage) :
    ∀ st : RouterState,
      ∃ ext, (processFrames st frames).fulfilled = st.fulfilled ++ ext := by
  induction frames with
  | nil => exact fun st => ⟨[], by simp [processFrames]⟩
  | cons f fs ih =>
    intro st
    obtain ⟨ext, hext⟩ := ih (processFrame st f)
    have hstep : ∃ e0, (processFrame st f).fulfilled = st.fulfilled ++ e0 := by
      unfold processFrame
      by_cases h : f.is_response = true
      · rw [if_pos h]
        repeat' split
        all_goals first
          | exact ⟨[], (List.append_nil _).symm⟩
          | exact ⟨_, rfl⟩
      · rw [if_neg h]
        exact ⟨[], (List.append_nil _).symm⟩
    obtain ⟨e0, he0⟩ := hstep
    refine ⟨e0 ++ ext, ?_⟩
    rw [processFrames_cons, hext, he0, List.append_assoc]

theorem routerCoreDeliver :
    ∀ (order : List Int) (st : RouterState) (res err : Int → Option Json)
      (id : Int) (tok : Nat),
      (id, tok) ∈ st.pending →
      (st.pending.map Prod.fst).Nodup →
      (∀ j t, (j, t) ∈ st.pending → t = tok → j = id) →
      (∀ q ∈ st.fulfilled, q.1 ≠ tok) →
      id ∈ order →
      (∀ j ∈ order, -9223372036854775808 ≤ j ∧ j ≤ 9223372036854775807) →
      delivered (processFrames st (order.map (fun i => mkResponse i (res i) (err i)))) tok =
        some (mkResponse id (res id) (err id)) := by
  intro order
  induction order with
  | nil =>
    intro st res err id tok _ _ _ _ hid _
    cases hid
  | cons j rest ih =>
    intro st res err id tok hmem hkeys hown hclean hid hrange
    rw [List.map_cons, processFrames_cons]
    by_cases hj : j = id
    · subst hj
      have hlk : lookupPending st.pending j = some tok := lookupPending_mem _ _ _ hmem hkeys
      rw [processFrame_serve st j (res j) (err j) tok hlk (hrange j (List.mem_cons_self j rest))]
      obtain ⟨ext, hext⟩ := processFrames_fulfilled_extend
        (rest.map (fun i => mkResponse i (res i) (err i)))
        { st with pending := removePending st.pending j,
                  fulfilled := st.fulfilled ++ [(tok, mkResponse j (res j) (err j))] }
      unfold delivered
      rw [hext]
      have hnone : st.fulfilled.find? (fun p => p.fst == tok) = none := by
        apply List.find?_eq_none.mpr
        intro q hq
        simp only [beq_iff_eq]
        exact hclean q hq
      show ((st.fulfilled ++ [(tok, mkResponse j (res j) (err j))] ++ ext).find?
        (fun p => p.fst == tok)).map Prod.snd = _
      rw [List.append_assoc, List.find?_append, hnone]
      show (([(tok, mkResponse j (res j) (err j))] ++ ext).find?
        (fun p => p.fst == tok)).map Prod.snd = _
      rw [List.singleton_append, List.find?_cons_of_pos _ (by simp)]
      rfl
    · cases hlk : lookupPending st.pending j with
      | none =>
        rw [processFrame_response_nolookup st j _ _ hlk]
        refine ih st res err id tok hmem hkeys hown hclean ?_ ?_
        · rcases List.mem_cons.mp hid with h | h
          · exact absurd h.symm hj
          · exact h
        · exact fun x hx => hrange x (List.mem_cons_of_mem j hx)
      | some t =>
        rw [processFrame_serve st j (res j) (err j) t hlk (hrange j (List.mem_cons_self j rest))]
        refine ih _ res err id tok ?_ ?_ ?_ ?_ ?_ ?_
        · exact mem_removePending st.pending j id tok hmem (fun h => hj h.symm)
        · exact List.Nodup.sublist (removePending_keys_sublist st.pending j) hkeys
        · intro a b hab hb
          exact hown a b (removePending_subset st.pending j _ hab) hb
        · intro q hq
          rcases List.mem_append.mp hq with hq | hq
          · exact hclean q hq
          · rw [List.mem_singleton] at hq
            subst hq
            intro ht
            exact hj (hown j t (lookupPending_eq_some_mem _ _ _ hlk) ht)
        · rcases List.mem_cons.mp hid with h | h
          · exact absurd h.symm hj
          · exact h
        · exact fun x hx => hrange x (List.mem_cons_of_mem j hx)

/-- C1: with any set of in-flight requests (distinct ids, distinct one-shot
channels) and the matching response frames arriving in any order, every
caller's one-shot receives exactly the response frame carrying that caller's
id. -/
theorem transport_correlates_responses_by_id :
    ∀ (pend : List (Int × Nat)) (order : List Int) (res err : Int → Option Json),
      order.Perm (pend.map Prod.fst) →
      (pend.map Prod.fst).Nodup →
      (pend.map Prod.snd).Nodup →
      (∀ j ∈ pend.map Prod.fst,
        -9223372036854775808 ≤ j ∧ j ≤ 9223372036854775807) →
      ∀ id tok, (id, tok) ∈ pend →
        delivered (processFrames (initRouter pend)
            (order.map (fun i => mkResponse i (res i) (err i)))) tok =
          some (mkResponse id (res id) (err id)) := by
  intro pend order res err hperm hkeys htoks hrange id tok hmem
  apply routerCoreDeliver order (initRouter pend) res err id tok
  · exact hmem
  · exact hkeys
  · intro j t hjt ht
    subst ht
    have heq := List.inj_on_of_nodup_map htoks hjt hmem rfl
    exact congrArg Prod.fst heq
  · intro q hq
    cases hq
  · exact hperm.mem_iff.mpr (List.mem_map_of_mem Prod.fst hmem)
  · exact fun j hj => hrange j (hperm.mem_iff.mp hj)

/-- Witness for C1: three requests answered in the order 3, 1, 2 — the
caller of request 1 receives the response carrying id 1. -/
theorem transport_correlates_responses_by_id_witness :
    delivered (processFrames (initRouter [(1, 10), (2, 20), (3, 30)])
        ([3, 1, 2].map (fun i => mkResponse i (some (Json.numI i)) none))) 10 =
      some (mkResponse 1 (some (Json.numI 1)) none) :=
  transport_correlates_responses_by_id [(1, 10), (2, 20), (3, 30)] [3, 1, 2]
    (fun i => some (Json.numI i)) (fun _ => none)
    (by decide) (by decide) (by decide) (by decide) 1 10 (by decide)
